import Mathlib

/-!
Verification of the lake-sandbox repartitioning and validation pipeline.

The definitions below are a shallow embedding of the Python sources:
  * `src/lake_sandbox/reorg_pattern/reorganize/reorg.py` (`reorganize_by_parcel_chunks`)
  * `src/lake_sandbox/reorg_pattern/reorganize/validation.py`
    (`validate_parquet_file`, `check_existing_chunk`, `verify_file_creation`, `update_stats`)
  * `src/lake_sandbox/reorg_pattern/delta/delta.py` (`convert_to_delta_lake`)
  * `src/lake_sandbox/reorg_pattern/delta/partition_manager.py`
    (`DeltaTableState`, `check_skip_partition`, `extract_partition_id`)
  * `src/lake_sandbox/validator/delta.py` (`validate_partitioned_delta_table`)

External collaborators (DuckDB queries, parquet I/O, the Delta Lake library)
are modelled explicitly: file contents become lists of rows, the DuckDB `HASH`
function becomes an arbitrary function `String → Nat`, file-system state and
query failures become explicit inputs, and exceptions become `Except` values.
-/

namespace LakeSandbox

/-- One source record, as selected by the extraction query of
`reorganize_by_parcel_chunks` (reorg.py lines 116-137): the key columns
`parcel_id` and `date`, plus the fixed projection of measurement columns.
The measurement fields are carried through unchanged by every operation in
scope (the source never computes with them), so they are modelled as
integers. -/
structure Row where
  parcel_id : String
  date : Nat
  ndvi : Int := 0
  evi : Int := 0
  red : Int := 0
  nir : Int := 0
  blue : Int := 0
  green : Int := 0
  swir1 : Int := 0
  swir2 : Int := 0
  temperature : Int := 0
  precipitation : Int := 0
  cloud_cover : Int := 0
  geometry_area : Int := 0
deriving DecidableEq, Repr

/-- The deduplication key used throughout the pipeline: (`parcel_id`, `date`). -/
def rowKey (r : Row) : String × Nat :=
  (r.parcel_id, r.date)

/-- The ordering `ORDER BY parcel_id, date` used by both the reorganize
extraction query (reorg.py line 135) and the Delta dedup query
(delta.py line 137). -/
def rowLe (a b : Row) : Prop :=
  a.parcel_id < b.parcel_id ∨ (a.parcel_id = b.parcel_id ∧ a.date ≤ b.date)

instance : DecidableRel rowLe := fun a b => by
  unfold rowLe; infer_instance

instance : IsTotal Row rowLe := by
  constructor
  intro a b
  rcases lt_trichotomy a.parcel_id b.parcel_id with h | h | h
  · exact Or.inl (Or.inl h)
  · rcases Nat.le_total a.date b.date with hd | hd
    · exact Or.inl (Or.inr ⟨h, hd⟩)
    · exact Or.inr (Or.inr ⟨h.symm, hd⟩)
  · exact Or.inr (Or.inl h)

instance : IsTrans Row rowLe := by
  constructor
  intro a b c hab hbc
  rcases hab with hab | ⟨hab, had⟩
  · rcases hbc with hbc | ⟨hbc, _⟩
    · exact Or.inl (hab.trans hbc)
    · exact Or.inl (hbc ▸ hab)
  · rcases hbc with hbc | ⟨hbc, hbd⟩
    · exact Or.inl (hab ▸ hbc)
    · exact Or.inr ⟨hab.trans hbc, had.trans hbd⟩

/-- `ORDER BY parcel_id, date` applied to a list of rows. -/
def sortRows (rows : List Row) : List Row :=
  List.insertionSort rowLe rows

/-- The shard index assigned to a parcel id by the extraction query
`WHERE HASH(parcel_id) % total_chunks = chunk_id` (reorg.py line 134).
`hash` is DuckDB's `HASH` function, an external collaborator, so it is a
parameter of the embedding. -/
def chunkIndex (hash : String → Nat) (total_chunks : Nat) (pid : String) : Nat :=
  hash pid % total_chunks

/-- The rows written to the output file of chunk `chunk_id` by the `COPY`
statement of `reorganize_by_parcel_chunks` (reorg.py lines 116-137):
the source rows whose hashed parcel id selects this chunk, sorted by
(`parcel_id`, `date`). -/
def chunkRows (hash : String → Nat) (total_chunks chunk_id : Nat)
    (rows : List Row) : List Row :=
  sortRows (rows.filter fun r => chunkIndex hash total_chunks r.parcel_id = chunk_id)

/-! ## Reorganize phase: statistics and per-chunk processing (validation.py, reorg.py) -/

/-- An increment to the statistics dictionary, as returned by
`check_existing_chunk` / `verify_file_creation` and applied by
`update_stats` (validation.py lines 110-118, which only ever adds). -/
structure StatsDelta where
  created : Nat := 0
  skipped : Nat := 0
  failed : Nat := 0
deriving DecidableEq, Repr

instance : Add StatsDelta :=
  ⟨fun a b => ⟨a.created + b.created, a.skipped + b.skipped, a.failed + b.failed⟩⟩

theorem StatsDelta.add_def (a b : StatsDelta) :
    a + b = ⟨a.created + b.created, a.skipped + b.skipped, a.failed + b.failed⟩ :=
  rfl

instance {ε α : Type} [DecidableEq ε] [DecidableEq α] : DecidableEq (Except ε α)
  | .ok a, .ok b => decidable_of_iff (a = b) (by simp)
  | .error a, .error b => decidable_of_iff (a = b) (by simp)
  | .ok _, .error _ => isFalse (by simp)
  | .error _, .ok _ => isFalse (by simp)

/-- The observable state of a chunk's `data.parquet` file, as probed by
`validate_parquet_file` (validation.py lines 9-41): the file is absent, or
present and readable with a row count, or present but unreadable (the
`except` branch, carrying the error text). -/
inductive FileState where
  | absent
  | present (read : Except String Nat)
deriving DecidableEq, Repr

/-- `validate_parquet_file` (validation.py lines 9-41): returns
(is_valid, row_count, error_message). -/
def validate_parquet_file (f : FileState) : Bool × Nat × Option String :=
  match f with
  | .absent => (false, 0, some "File does not exist")
  | .present (.error e) => (false, 0, some e)
  | .present (.ok n) =>
    if 0 < n then (true, n, none) else (false, 0, some "File is empty")

/-- `check_existing_chunk` (validation.py lines 44-81): decides whether an
existing chunk file should be skipped (returning the stats increment to
apply) or reprocessed. The source returns `(False, {})` when the file does
not exist or `force` is set, `(True, {"skipped": 1})` when the existing
file validates, and `(False, {})` (recreate) when it is empty or
corrupted. -/
def check_existing_chunk (f : FileState) (force : Bool) : Bool × StatsDelta :=
  if f = FileState.absent ∨ force = true then (false, {})
  else if (validate_parquet_file f).1 then (true, { skipped := 1 })
  else (false, {})

/-- `verify_file_creation` (validation.py lines 84-107): after the extraction
query ran, inspect the output file; missing file → `failed`, valid file →
`created`, existing-but-invalid file → `failed`. -/
def verify_file_creation (f : FileState) : StatsDelta :=
  if f = FileState.absent then { failed := 1 }
  else if (validate_parquet_file f).1 then { created := 1 }
  else { failed := 1 }

/-- The external environment one iteration of the chunk loop of
`reorganize_by_parcel_chunks` (reorg.py lines 97-146) interacts with:
the state of the chunk's output file before the iteration, whether the
extraction `COPY` query raises, and the state of the output file after
the extraction ran. -/
structure ChunkEnv where
  preState : FileState
  extractOk : Bool
  postState : FileState

/-- One iteration of the chunk loop of `reorganize_by_parcel_chunks`
(reorg.py lines 97-146), as the stats increment it applies: skip check
first; if not skipped, run the extraction; an exception counts `failed`,
otherwise `verify_file_creation` decides `created` vs `failed`. -/
def process_chunk (env : ChunkEnv) (force : Bool) : StatsDelta :=
  let check := check_existing_chunk env.preState force
  if check.1 then check.2
  else if env.extractOk then verify_file_creation env.postState
  else { failed := 1 }

/-- The first `n` iterations of the chunk loop, accumulated with
`update_stats` (which adds increments). -/
def reorg_loop (envs : Nat → ChunkEnv) (force : Bool) : Nat → StatsDelta
  | 0 => {}
  | n + 1 => reorg_loop envs force n + process_chunk (envs n) force

/-- The statistics record returned by `reorganize_by_parcel_chunks`
(reorg.py line 95): `{'total_chunks', 'created', 'skipped', 'failed'}`. -/
structure ReorgStats where
  total_chunks : Nat
  created : Nat
  skipped : Nat
  failed : Nat
deriving DecidableEq, Repr

/-- The two fail-fast errors of `reorganize_by_parcel_chunks`
(`raise typer.Exit(1)`, reorg.py lines 48-56): input directory missing,
or no parquet files found. -/
inductive ReorgError where
  | inputDirMissing
  | noParquetFiles
deriving DecidableEq, Repr

/-- `reorganize_by_parcel_chunks` (reorg.py lines 17-155). Inputs of the
embedding: whether the input directory exists, the contents of the parquet
files found under it (the first list is the sample file the source reads
at lines 76-84), the `chunk_size`, `dry_run` and `force` flags, and the
per-chunk environment. The source computes
`total_chunks = (sample_count + chunk_size - 1) // chunk_size` from the
raw `COUNT(*)` of the sample file, then runs the chunk loop. -/
def reorganize_by_parcel_chunks (inputDirExists : Bool)
    (sourceFiles : List (List Row)) (chunk_size : Nat)
    (dry_run force : Bool) (envs : Nat → ChunkEnv) :
    Except ReorgError ReorgStats :=
  if inputDirExists = false then .error .inputDirMissing
  else
    match sourceFiles with
    | [] => .error .noParquetFiles
    | sample :: _ =>
      if dry_run then .ok ⟨0, 0, 0, 0⟩
      else
        let sample_count := sample.length
        let total_chunks := (sample_count + chunk_size - 1) / chunk_size
        let d := reorg_loop envs force total_chunks
        .ok ⟨total_chunks, d.created, d.skipped, d.failed⟩

/-- Modelled from the spec (not from the source): the shard-count formula the
spec states, `total_shards = ceil(distinct-entity-count / chunk_size)`,
counting DISTINCT parcel ids of the sample file. The source instead uses
the raw `COUNT(*)` of the sample file; this definition exists only to be
compared with the source's behaviour. -/
def total_chunks_spec (sample : List Row) (chunk_size : Nat) : Nat :=
  ((sample.map Row.parcel_id).toFinset.card + chunk_size - 1) / chunk_size

/-! ## Delta conversion phase (delta.py, partition_manager.py) -/

/-- Keep the first row of each (`parcel_id`, `date`) group, in list order:
the effect of `DISTINCT ON (parcel_id, date)` on an already-ordered row
list. -/
def dedupKeyed : List Row → List Row
  | [] => []
  | r :: rs => r :: dedupKeyed (rs.filter fun x => !(rowKey x == rowKey r))
termination_by l => l.length
decreasing_by
  simp only [List.length_cons]
  exact Nat.lt_succ_of_le (List.length_filter_le _ _)

/-- The dedup query of `convert_to_delta_lake` (delta.py lines 132-138):
`SELECT DISTINCT ON (parcel_id, date) * ... ORDER BY parcel_id, date` —
sort by (`parcel_id`, `date`), then keep the first row of each key group. -/
def dedup_rows (rows : List Row) : List Row :=
  dedupKeyed (sortRows rows)

/-- A row tagged with its `parcel_chunk` partition column, as built by the
dedup query's `'{partition_id}' as parcel_chunk` (delta.py line 135). -/
structure TaggedRow where
  row : Row
  parcel_chunk : String
deriving DecidableEq, Repr

/-- The dataframe `convert_to_delta_lake` writes for one chunk
(delta.py lines 131-138): the deduplicated, sorted rows of the shard file,
each tagged with the chunk's partition id. -/
def chunk_dataframe (partition_id : String) (rows : List Row) : List TaggedRow :=
  (dedup_rows rows).map fun r => ⟨r, partition_id⟩

/-- `DeltaTableState` (partition_manager.py lines 67-106): the immutable
snapshot of the target Delta table taken once per run — whether a valid
table exists and which partition ids it already contains. -/
structure DeltaTableState where
  tableExists : Bool
  existing_partitions : List String
deriving DecidableEq, Repr

/-- `extract_partition_id` (partition_manager.py lines 12-23): split the
chunk directory name on `=` and take the second piece; a name without `=`
raises `ValueError` (modelled as `none`). -/
def extract_partition_id (chunk_name : String) : Option String :=
  match chunk_name.splitOn "=" with
  | _ :: p :: _ => some p
  | _ => none

/-- `check_skip_partition` (partition_manager.py lines 109-132), given the
partition id already extracted from the chunk directory name (the
conversion loop only visits directories named `parcel_chunk=XX`, so
`extract_partition_id` always succeeds there): no skip when `force` is set
or the table does not exist; skip with `{"skipped": 1}` when the partition
id is among the snapshot's existing partitions. -/
def check_skip_partition (st : DeltaTableState) (partition_id : String)
    (force : Bool) : Bool × StatsDelta :=
  if force = true ∨ st.tableExists = false then (false, {})
  else if partition_id ∈ st.existing_partitions then (true, { skipped := 1 })
  else (false, {})

/-- The input of one iteration of the conversion loop of
`convert_to_delta_lake` (delta.py lines 112-169): the chunk's partition id
and the contents of its `data.parquet` (`none` when the file is missing). -/
structure ConvChunk where
  partition_id : String
  data : Option (List Row)
deriving Repr

/-- The Delta write modes of `write_deltalake` (delta.py lines 146-152). -/
inductive WriteMode where
  | overwrite
  | append
deriving DecidableEq, Repr

/-- Whether one conversion-loop iteration reaches the `write_deltalake`
call (delta.py lines 116-160): the data file exists, the partition is not
skipped, and the deduplicated dataframe is non-empty. -/
def chunk_reaches_write (st : DeltaTableState) (force : Bool)
    (c : ConvChunk) : Bool :=
  match c.data with
  | none => false
  | some rows =>
    !(check_skip_partition st c.partition_id force).1
      && !(dedup_rows rows).isEmpty

/-- The sequence of `write_deltalake` calls performed by the conversion
loop of `convert_to_delta_lake` (delta.py lines 110-169), with the write
mode each call uses. `first` is the loop's `first_chunk` flag: the first
chunk that reaches the write step uses `overwrite` when the table did not
previously exist or `force` is set, `append` otherwise; the flag is
cleared there, so every later write uses `append`. Chunks that never reach
the write step (missing file, skipped partition, empty dataframe) leave
the flag unchanged. -/
def conv_write_modes (st : DeltaTableState) (force : Bool) :
    List ConvChunk → Bool → List (String × WriteMode)
  | [], _ => []
  | c :: cs, first =>
    if chunk_reaches_write st force c then
      (c.partition_id,
        if first then
          if !st.tableExists || force then WriteMode.overwrite
          else WriteMode.append
        else WriteMode.append) :: conv_write_modes st force cs false
    else conv_write_modes st force cs first

/-- The write calls of one full run of `convert_to_delta_lake`
(`first_chunk = True` initially, delta.py line 110). -/
def convert_to_delta_lake_writes (st : DeltaTableState) (force : Bool)
    (chunks : List ConvChunk) : List (String × WriteMode) :=
  conv_write_modes st force chunks true

/-! ## Delta table validator (validator/delta.py) -/

/-- The overall table statistics returned by the stats query of
`validate_partitioned_delta_table` (validator/delta.py lines 112-142). -/
structure TableStats where
  total_records : Nat := 0
  unique_parcels : Nat := 0
  unique_dates : Nat := 0
  unique_combinations : Nat := 0
deriving DecidableEq, Repr

/-- `expected_combinations = unique_parcels * unique_dates`
(validator/delta.py line 145). -/
def expected_combinations (s : TableStats) : Int :=
  (s.unique_parcels : Int) * s.unique_dates

/-- `missing_combinations = expected_combinations - unique_combinations`
(validator/delta.py line 146). -/
def missing_combinations (s : TableStats) : Int :=
  expected_combinations s - s.unique_combinations

/-- `completeness_pct` (validator/delta.py lines 147-151):
`unique_combinations / expected_combinations * 100` when the expected
count is positive, otherwise `0`. -/
def completeness_pct (s : TableStats) : ℚ :=
  if 0 < expected_combinations s then
    (s.unique_combinations : ℚ) / (expected_combinations s : ℚ) * 100
  else 0

/-- One validation issue collected by `validate_partitioned_delta_table`.
The source collects formatted strings; the embedding keeps the issue kind
and the data interpolated into the string: partition overlap (lines
204-213), missing parcel-date combinations (lines 216-218), and
cross-validation issues from `cross_validate_partitions_with_organized`
(lines 221-225). -/
inductive Issue where
  | overlap (partition : String) (overlapping : Nat)
  | missingData (missing : Int)
  | crossValidation (detail : String)
deriving DecidableEq, Repr

/-- Whether an issue is a partition-overlap issue. -/
def Issue.isOverlap : Issue → Bool
  | .overlap _ _ => true
  | _ => false

/-- The overlap-detection loop of `validate_partitioned_delta_table`
(validator/delta.py lines 204-213): walk the partitions in order, keeping
the set `all_partition_parcels` of parcel ids seen so far; a partition
whose parcel-id set intersects it contributes an overlap issue, and its
parcel ids are then added to the running set. -/
def overlap_issues (seen : Finset String) :
    List (String × List String) → List Issue
  | [] => []
  | (p, ids) :: rest =>
    (if (seen ∩ ids.toFinset).Nonempty then
      [Issue.overlap p (seen ∩ ids.toFinset).card]
    else []) ++ overlap_issues (seen ∪ ids.toFinset) rest

/-- The validation result record `DeltaValidationResult`
(validator/models.py), restricted to the fields the validator computes
from its inputs. -/
structure DeltaValidationResult where
  valid : Bool
  total_tables : Nat
  total_unique_parcels : Nat
  total_records : Nat
  issues : List Issue
deriving DecidableEq, Repr

/-- The issue-collection and validity core of
`validate_partitioned_delta_table` (validator/delta.py lines 100-256).
Inputs of the embedding: the table statistics from the stats query, the
per-partition parcel-id sets `partition_parcels` in the sorted order the
source iterates them (lines 157-184), and the issues returned by the
optional cross-validation (lines 221-225; `[]` when no organized
directory is given). Issues are collected in source order — overlap
issues, then the missing-combinations issue when
`missing_combinations > 0`, then the cross-validation issues — and
overall validity is `len(issues) <= 0` (line 240). -/
def validate_partitioned_delta_table (stats : TableStats)
    (partition_parcels : List (String × List String))
    (cross_issues : List Issue) : DeltaValidationResult :=
  let issues :=
    overlap_issues ∅ partition_parcels
      ++ (if 0 < missing_combinations stats then
            [Issue.missingData (missing_combinations stats)]
          else [])
      ++ cross_issues
  { valid := issues.isEmpty
    total_tables := partition_parcels.length
    total_unique_parcels := stats.unique_parcels
    total_records := stats.total_records
    issues := issues }

/-! ## Theorems -/

/-- C9: with `unique_parcels = 10`, `unique_dates = 5`,
`unique_combinations = 45`, the validator's completeness percentage is
`90.0` and its missing-combinations count is `5`
(validator/delta.py lines 144-151). -/
theorem completeness_math_at_10_5_45 :
    completeness_pct { unique_parcels := 10, unique_dates := 5, unique_combinations := 45 } = 90 ∧
    missing_combinations { unique_parcels := 10, unique_dates := 5, unique_combinations := 45 } = 5 := by
  constructor
  · norm_num [completeness_pct, expected_combinations]
  · norm_num [missing_combinations, expected_combinations]

/-- C1 counterexample: a validator run whose only collected issue is the
missing-combinations issue (no partition-overlap issue at all) still
returns `valid = False`, because the source defines validity as
`len(issues) <= 0` (validator/delta.py line 240), not as
"no overlap issues". -/
theorem nonoverlap_issue_invalidates :
    (∀ i ∈ (validate_partitioned_delta_table
        { total_records := 45, unique_parcels := 10, unique_dates := 5, unique_combinations := 45 }
        [("00", ["a"]), ("01", ["b"])] []).issues, i.isOverlap = false) ∧
    (validate_partitioned_delta_table
        { total_records := 45, unique_parcels := 10, unique_dates := 5, unique_combinations := 45 }
        [("00", ["a"]), ("01", ["b"])] []).valid = false := by
  constructor
  · decide
  · decide

/-- C1 amended: the returned result has `valid = True` exactly when the
collected issue list is empty — equivalently, when there are no overlap
issues AND no missing-combinations issue AND no cross-validation issues.
Any collected issue, overlap or not, alone makes the returned result
invalid. -/
theorem validity_iff_issue_free (stats : TableStats)
    (pp : List (String × List String)) (cross : List Issue) :
    ((validate_partitioned_delta_table stats pp cross).valid = true ↔
      (validate_partitioned_delta_table stats pp cross).issues = []) ∧
    ((validate_partitioned_delta_table stats pp cross).valid = true ↔
      (overlap_issues ∅ pp = [] ∧ ¬ 0 < missing_combinations stats ∧ cross = [])) := by
  have hm : ((if 0 < missing_combinations stats then
      [Issue.missingData (missing_combinations stats)] else []) = ([] : List Issue)) ↔
      ¬ 0 < missing_combinations stats := by
    split <;> simp_all
  constructor
  · simp [validate_partitioned_delta_table, List.isEmpty_iff]
  · simp only [validate_partitioned_delta_table, List.isEmpty_iff, List.append_eq_nil, hm]
    tauto

/-- C2 counterexample: for a sample file holding two rows with the same
`parcel_id` and `chunk_size = 1`, the run computes `total_chunks = 2`
(from the raw `COUNT(*)` of the sample file, reorg.py lines 77-85), while
the spec's distinct-parcel formula gives `1`. -/
theorem total_chunks_counts_rows_not_parcels :
    reorganize_by_parcel_chunks true
        [[{ parcel_id := "a", date := 1 }, { parcel_id := "a", date := 2 }]] 1 false false
        (fun _ => ⟨FileState.absent, true, FileState.present (.ok 1)⟩) =
      .ok ⟨2, 2, 0, 0⟩ ∧
    total_chunks_spec [{ parcel_id := "a", date := 1 }, { parcel_id := "a", date := 2 }] 1 = 1 := by
  constructor
  · decide
  · decide

/-- C2 amended: `total_chunks` is `ceil(sample_row_count / chunk_size)`
computed from the RAW row count (`COUNT(*)`) of the one sample source
file read, duplicates included — not from the distinct-parcel count.
Consequently it depends on the sample only through its row count. -/
theorem total_chunks_ceil_of_raw_count (sample : List Row) (rest : List (List Row))
    (chunk_size : Nat) (hcs : 0 < chunk_size) (force : Bool) (envs : Nat → ChunkEnv) :
    ∃ s, reorganize_by_parcel_chunks true (sample :: rest) chunk_size false force envs = .ok s ∧
      sample.length ≤ chunk_size * s.total_chunks ∧
      chunk_size * s.total_chunks < sample.length + chunk_size ∧
      (∀ (sample' : List Row) (rest' : List (List Row)) (envs' : Nat → ChunkEnv),
        sample'.length = sample.length →
        ∃ s', reorganize_by_parcel_chunks true (sample' :: rest') chunk_size false force envs' = .ok s' ∧
          s'.total_chunks = s.total_chunks) := by
  refine ⟨_, rfl, ?_, ?_, ?_⟩
  · show sample.length ≤ chunk_size * ((sample.length + chunk_size - 1) / chunk_size)
    have h := Nat.div_add_mod (sample.length + chunk_size - 1) chunk_size
    have hr := Nat.mod_lt (sample.length + chunk_size - 1) hcs
    omega
  · show chunk_size * ((sample.length + chunk_size - 1) / chunk_size) < sample.length + chunk_size
    have h := Nat.div_add_mod (sample.length + chunk_size - 1) chunk_size
    have hr := Nat.mod_lt (sample.length + chunk_size - 1) hcs
    omega
  · intro sample' rest' envs' hlen
    exact ⟨_, rfl, by show (sample'.length + chunk_size - 1) / chunk_size = _; rw [hlen]⟩

/-- Witness for the C2 amended theorem at a concrete input. -/
theorem total_chunks_ceil_of_raw_count_witness :
    0 < 2 ∧
    ∃ s, reorganize_by_parcel_chunks true
        [[{ parcel_id := "a", date := 1 }, { parcel_id := "a", date := 2 },
          { parcel_id := "b", date := 1 }]] 2 false false
        (fun _ => ⟨FileState.absent, true, FileState.present (.ok 1)⟩) = .ok s ∧
      ([{ parcel_id := "a", date := 1 }, { parcel_id := "a", date := 2 },
        { parcel_id := "b", date := 1 }] : List Row).length ≤ 2 * s.total_chunks ∧
      2 * s.total_chunks <
        ([{ parcel_id := "a", date := 1 }, { parcel_id := "a", date := 2 },
          { parcel_id := "b", date := 1 }] : List Row).length + 2 ∧
      (∀ (sample' : List Row) (rest' : List (List Row)) (envs' : Nat → ChunkEnv),
        sample'.length =
          ([{ parcel_id := "a", date := 1 }, { parcel_id := "a", date := 2 },
            { parcel_id := "b", date := 1 }] : List Row).length →
        ∃ s', reorganize_by_parcel_chunks true (sample' :: rest') 2 false false envs' = .ok s' ∧
          s'.total_chunks = s.total_chunks) :=
  ⟨by decide,
    total_chunks_ceil_of_raw_count
      [{ parcel_id := "a", date := 1 }, { parcel_id := "a", date := 2 },
       { parcel_id := "b", date := 1 }] [] 2 (by decide) false
      (fun _ => ⟨FileState.absent, true, FileState.present (.ok 1)⟩)⟩

/-- C3 counterexample: when the sample file read for the shard-count
estimate has `COUNT(*) = 0`, `reorganize_by_parcel_chunks` does not fail
fast with an input-missing-style error: it computes `total_chunks = 0`,
runs the chunk loop zero times, and returns all-zero statistics as a
normal result (reorg.py lines 76-97 and 147-155). -/
theorem zero_sample_count_returns_ok :
    reorganize_by_parcel_chunks true [[]] 10000 false false
        (fun _ => ⟨FileState.absent, true, FileState.present (.ok 1)⟩) =
      .ok ⟨0, 0, 0, 0⟩ ∧
    ∀ e, reorganize_by_parcel_chunks true [[]] 10000 false false
        (fun _ => ⟨FileState.absent, true, FileState.present (.ok 1)⟩) ≠ .error e := by
  constructor
  · decide
  · intro e
    cases e <;> decide

/-- C3 amended: a sample count of 0 causes no numeric exception (the only
division is the ceiling division by `chunk_size`, never by the sample
count) and no explicit error either: for every positive `chunk_size` the
run returns `ok` with `total_chunks = 0` and all-zero statistics,
silently doing nothing. -/
theorem empty_sample_yields_zero_chunks (rest : List (List Row)) (chunk_size : Nat)
    (hcs : 0 < chunk_size) (force : Bool) (envs : Nat → ChunkEnv) :
    reorganize_by_parcel_chunks true ([] :: rest) chunk_size false force envs =
      .ok ⟨0, 0, 0, 0⟩ := by
  have h0 : (chunk_size - 1) / chunk_size = 0 := Nat.div_eq_of_lt (by omega)
  simp [reorganize_by_parcel_chunks, h0, reorg_loop]

/-- Witness for the C3 amended theorem at a concrete input. -/
theorem empty_sample_yields_zero_chunks_witness :
    0 < 10000 ∧
    reorganize_by_parcel_chunks true [[]] 10000 false false
        (fun _ => ⟨FileState.absent, true, FileState.present (.ok 1)⟩) =
      .ok ⟨0, 0, 0, 0⟩ :=
  ⟨by decide,
    empty_sample_yields_zero_chunks [] 10000 (by decide) false
      (fun _ => ⟨FileState.absent, true, FileState.present (.ok 1)⟩)⟩

lemma check_existing_chunk_cases (f : FileState) (force : Bool) :
    check_existing_chunk f force = (true, ⟨0, 1, 0⟩) ∨
    check_existing_chunk f force = (false, ⟨0, 0, 0⟩) := by
  unfold check_existing_chunk
  split
  · right; rfl
  · split
    · left; rfl
    · right; rfl

lemma verify_file_creation_cases (f : FileState) :
    verify_file_creation f = ⟨1, 0, 0⟩ ∨ verify_file_creation f = ⟨0, 0, 1⟩ := by
  unfold verify_file_creation
  split
  · right; rfl
  · split
    · left; rfl
    · right; rfl

lemma process_chunk_unit (env : ChunkEnv) (force : Bool) :
    process_chunk env force = ⟨1, 0, 0⟩ ∨ process_chunk env force = ⟨0, 1, 0⟩ ∨
    process_chunk env force = ⟨0, 0, 1⟩ := by
  rcases check_existing_chunk_cases env.preState force with h | h
  · have hp : process_chunk env force = ⟨0, 1, 0⟩ := by simp [process_chunk, h]
    rw [hp]; right; left; rfl
  · by_cases he : env.extractOk = true
    · have hp : process_chunk env force = verify_file_creation env.postState := by
        simp [process_chunk, h, he]
      rw [hp]
      rcases verify_file_creation_cases env.postState with h' | h' <;> rw [h']
      · left; rfl
      · right; right; rfl
    · have hp : process_chunk env force = ⟨0, 0, 1⟩ := by simp [process_chunk, h, he]
      rw [hp]; right; right; rfl

lemma reorg_loop_sum (envs : Nat → ChunkEnv) (force : Bool) (n : Nat) :
    (reorg_loop envs force n).created + (reorg_loop envs force n).skipped +
      (reorg_loop envs force n).failed = n := by
  induction n with
  | zero => rfl
  | succ n ih =>
    rcases process_chunk_unit (envs n) force with h | h | h <;>
      simp [reorg_loop, StatsDelta.add_def, h] <;> omega

/-- C10: every chunk iteration of the reorganize loop adds exactly one to
exactly one of `created` / `skipped` / `failed`; the counters never
decrease as the loop advances; and every non-dry-run execution that
returns statistics satisfies `created + skipped + failed = total_chunks`. -/
theorem reorg_stats_invariant (envs : Nat → ChunkEnv) (force : Bool) :
    (∀ env : ChunkEnv, process_chunk env force = ⟨1, 0, 0⟩ ∨
      process_chunk env force = ⟨0, 1, 0⟩ ∨ process_chunk env force = ⟨0, 0, 1⟩) ∧
    (∀ n m : Nat, n ≤ m →
      (reorg_loop envs force n).created ≤ (reorg_loop envs force m).created ∧
      (reorg_loop envs force n).skipped ≤ (reorg_loop envs force m).skipped ∧
      (reorg_loop envs force n).failed ≤ (reorg_loop envs force m).failed) ∧
    (∀ (inputDirExists : Bool) (files : List (List Row)) (chunk_size : Nat) (s : ReorgStats),
      reorganize_by_parcel_chunks inputDirExists files chunk_size false force envs = .ok s →
      s.created + s.skipped + s.failed = s.total_chunks) := by
  refine ⟨fun env => process_chunk_unit env force, ?_, ?_⟩
  · intro n m h
    induction m with
    | zero =>
      have : n = 0 := Nat.le_zero.mp h
      subst this
      exact ⟨le_refl _, le_refl _, le_refl _⟩
    | succ m ih =>
      rcases Nat.lt_or_eq_of_le h with h' | h'
      · obtain ⟨h1, h2, h3⟩ := ih (Nat.lt_succ_iff.mp h')
        refine ⟨?_, ?_, ?_⟩ <;>
          simp only [reorg_loop, StatsDelta.add_def] <;> omega
      · subst h'
        exact ⟨le_refl _, le_refl _, le_refl _⟩
  · intro inputDirExists files chunk_size s h
    cases inputDirExists with
    | false => exact absurd h (by simp [reorganize_by_parcel_chunks])
    | true =>
      cases files with
      | nil => exact absurd h (by simp [reorganize_by_parcel_chunks])
      | cons sample rest =>
        have heq : reorganize_by_parcel_chunks true (sample :: rest) chunk_size false force envs =
            .ok ⟨(sample.length + chunk_size - 1) / chunk_size,
              (reorg_loop envs force ((sample.length + chunk_size - 1) / chunk_size)).created,
              (reorg_loop envs force ((sample.length + chunk_size - 1) / chunk_size)).skipped,
              (reorg_loop envs force ((sample.length + chunk_size - 1) / chunk_size)).failed⟩ := rfl
        rw [heq] at h
        have hs := Except.ok.inj h
        rw [← hs]
        exact reorg_loop_sum envs force _

/-- Witness for C10 at a concrete environment. -/
theorem reorg_stats_invariant_witness :
    (∀ env : ChunkEnv, process_chunk env false = ⟨1, 0, 0⟩ ∨
      process_chunk env false = ⟨0, 1, 0⟩ ∨ process_chunk env false = ⟨0, 0, 1⟩) ∧
    (∀ n m : Nat, n ≤ m →
      (reorg_loop (fun _ => ⟨FileState.absent, true, FileState.present (.ok 1)⟩) false n).created ≤
        (reorg_loop (fun _ => ⟨FileState.absent, true, FileState.present (.ok 1)⟩) false m).created ∧
      (reorg_loop (fun _ => ⟨FileState.absent, true, FileState.present (.ok 1)⟩) false n).skipped ≤
        (reorg_loop (fun _ => ⟨FileState.absent, true, FileState.present (.ok 1)⟩) false m).skipped ∧
      (reorg_loop (fun _ => ⟨FileState.absent, true, FileState.present (.ok 1)⟩) false n).failed ≤
        (reorg_loop (fun _ => ⟨FileState.absent, true, FileState.present (.ok 1)⟩) false m).failed) ∧
    (∀ (inputDirExists : Bool) (files : List (List Row)) (chunk_size : Nat) (s : ReorgStats),
      reorganize_by_parcel_chunks inputDirExists files chunk_size false false
        (fun _ => ⟨FileState.absent, true, FileState.present (.ok 1)⟩) = .ok s →
      s.created + s.skipped + s.failed = s.total_chunks) :=
  reorg_stats_invariant (fun _ => ⟨FileState.absent, true, FileState.present (.ok 1)⟩) false

/-- C8: for an existing, non-empty, readable chunk file, `force = False`
skips the chunk, incrementing only `skipped` (no extraction or write is
attempted: the outcome ignores the extraction environment); `force = True`
proceeds to extraction regardless of the pre-existing state; and an
existing empty or unreadable file is recreated (extraction proceeds)
rather than skipped. On the Delta side, `check_skip_partition` with
`force = True` likewise never skips. -/
theorem skip_then_force_behavior (n : Nat) (hn : 0 < n) :
    (∀ (extractOk : Bool) (post : FileState),
      process_chunk ⟨FileState.present (.ok n), extractOk, post⟩ false = ⟨0, 1, 0⟩) ∧
    (∀ (pre : FileState) (extractOk : Bool) (post : FileState),
      process_chunk ⟨pre, extractOk, post⟩ true =
        if extractOk then verify_file_creation post else ⟨0, 0, 1⟩) ∧
    (∀ (extractOk : Bool) (post : FileState),
      process_chunk ⟨FileState.present (.ok 0), extractOk, post⟩ false =
        if extractOk then verify_file_creation post else ⟨0, 0, 1⟩) ∧
    (∀ (e : String) (extractOk : Bool) (post : FileState),
      process_chunk ⟨FileState.present (.error e), extractOk, post⟩ false =
        if extractOk then verify_file_creation post else ⟨0, 0, 1⟩) ∧
    (∀ (st : DeltaTableState) (partition_id : String),
      check_skip_partition st partition_id true = (false, ⟨0, 0, 0⟩)) := by
  refine ⟨?_, ?_, ?_, ?_, ?_⟩
  · intro extractOk post
    simp [process_chunk, check_existing_chunk, validate_parquet_file, hn]
  · intro pre extractOk post
    simp [process_chunk, check_existing_chunk]
  · intro extractOk post
    simp [process_chunk, check_existing_chunk, validate_parquet_file]
  · intro e extractOk post
    simp [process_chunk, check_existing_chunk, validate_parquet_file]
  · intro st partition_id
    simp [check_skip_partition]

/-- Witness for C8 at `n = 3`. -/
theorem skip_then_force_behavior_witness :
    0 < 3 ∧
    (∀ (extractOk : Bool) (post : FileState),
      process_chunk ⟨FileState.present (.ok 3), extractOk, post⟩ false = ⟨0, 1, 0⟩) :=
  ⟨by decide, (skip_then_force_behavior 3 (by decide)).1⟩

lemma card_insert_erase {α : Type} [DecidableEq α] (a : α) (s : Finset α) :
    (insert a s).card = (s.erase a).card + 1 := by
  have h1 : insert a (s.erase a) = insert a s := by
    ext x
    simp only [Finset.mem_insert, Finset.mem_erase]
    tauto
  rw [← h1, Finset.card_insert_of_not_mem (Finset.not_mem_erase a s)]

lemma dedupKeyed_length (l : List Row) :
    (dedupKeyed l).length = (l.map rowKey).toFinset.card := by
  induction l using dedupKeyed.induct with
  | case1 => simp [dedupKeyed]
  | case2 r rs ih =>
    rw [dedupKeyed]
    simp only [List.length_cons, ih]
    have hset : ((rs.filter fun x => !(rowKey x == rowKey r)).map rowKey).toFinset =
        ((rs.map rowKey).toFinset).erase (rowKey r) := by
      ext k
      simp only [List.mem_toFinset, List.mem_map, List.mem_filter, Finset.mem_erase,
        Bool.not_eq_eq_eq_not, Bool.not_true, beq_eq_false_iff_ne, ne_eq]
      constructor
      · rintro ⟨x, ⟨hx, hne⟩, rfl⟩
        exact ⟨hne, x, hx, rfl⟩
      · rintro ⟨hne, x, hx, rfl⟩
        exact ⟨x, ⟨hx, hne⟩, rfl⟩
    rw [hset, List.map_cons, List.toFinset_cons, card_insert_erase]

lemma dedup_rows_length (rows : List Row) :
    (dedup_rows rows).length = (rows.map rowKey).toFinset.card := by
  rw [dedup_rows, dedupKeyed_length]
  have hperm : (sortRows rows).Perm rows := List.perm_insertionSort rowLe rows
  rw [List.toFinset_eq_of_perm _ _ (hperm.map rowKey)]

/-- C5: for every shard file, the dataframe `convert_to_delta_lake` writes
for that chunk has exactly one row per distinct (`parcel_id`, `date`)
pair of the shard file — duplicates are removed by the
`DISTINCT ON (parcel_id, date)` query, so the written row count equals
the distinct-pair count, not the raw row count. -/
theorem dedup_written_row_count (partition_id : String) (rows : List Row) :
    (chunk_dataframe partition_id rows).length = (rows.map rowKey).toFinset.card := by
  rw [chunk_dataframe, List.length_map, dedup_rows_length]

lemma conv_write_modes_false_append (st : DeltaTableState) (force : Bool) :
    ∀ (cs : List ConvChunk), ∀ e ∈ conv_write_modes st force cs false,
      e.2 = WriteMode.append := by
  intro cs
  induction cs with
  | nil => intro e he; simp [conv_write_modes] at he
  | cons c cs ih =>
    intro e he
    by_cases h : chunk_reaches_write st force c = true
    · rw [conv_write_modes, if_pos h] at he
      rcases List.mem_cons.mp he with rfl | he'
      · rfl
      · exact ih e he'
    · rw [conv_write_modes, if_neg h] at he
      exact ih e he

lemma conv_write_modes_true_shape (st : DeltaTableState) (force : Bool) :
    ∀ (cs : List ConvChunk), conv_write_modes st force cs true = [] ∨
      ∃ (p : String) (suffix : List ConvChunk),
        conv_write_modes st force cs true =
          (p, if !st.tableExists || force then WriteMode.overwrite else WriteMode.append) ::
            conv_write_modes st force suffix false := by
  intro cs
  induction cs with
  | nil => left; rfl
  | cons c cs ih =>
    by_cases h : chunk_reaches_write st force c = true
    · right
      exact ⟨c.partition_id, cs, by simp [conv_write_modes, h]⟩
    · rw [conv_write_modes, if_neg h]
      exact ih

/-- C4: in one run of `convert_to_delta_lake`, every `write_deltalake`
call after the first uses `append`, and the first call uses `overwrite`
exactly when the target table did not previously exist or `force` is set
(and `append` otherwise) — so `overwrite` fires at most once per run,
never for a second or later written chunk. -/
theorem overwrite_only_first_write (st : DeltaTableState) (force : Bool)
    (chunks : List ConvChunk) :
    (∀ (i : Nat) (h : i < (convert_to_delta_lake_writes st force chunks).length), 0 < i →
      ((convert_to_delta_lake_writes st force chunks).get ⟨i, h⟩).2 = WriteMode.append) ∧
    (∀ e, (convert_to_delta_lake_writes st force chunks).head? = some e →
      (e.2 = WriteMode.overwrite ↔ (st.tableExists = false ∨ force = true))) ∧
    (convert_to_delta_lake_writes st force chunks).countP
      (fun e => e.2 == WriteMode.overwrite) ≤ 1 := by
  rcases conv_write_modes_true_shape st force chunks with h | ⟨p, suffix, h⟩
  · rw [convert_to_delta_lake_writes, h]
    refine ⟨?_, ?_, ?_⟩
    · intro i hi
      simp at hi
    · intro e he
      simp at he
    · simp
  · rw [convert_to_delta_lake_writes, h]
    have htail := conv_write_modes_false_append st force suffix
    refine ⟨?_, ?_, ?_⟩
    · intro i hi hpos
      match i, hpos with
      | i + 1, _ =>
        show (List.get _ ⟨i + 1, hi⟩).2 = WriteMode.append
        rw [List.get_cons_succ]
        exact htail _ (List.get_mem _ _ _)
    · intro e he
      rw [List.head?_cons, Option.some_inj] at he
      subst he
      cases hst : st.tableExists <;> cases hforce : force <;> simp
    · rw [List.countP_cons]
      have hz : (conv_write_modes st force suffix false).countP
          (fun e => e.2 == WriteMode.overwrite) = 0 := by
        rw [List.countP_eq_zero]
        intro a ha
        rw [htail a ha]
        decide
      rw [hz]
      have hx : ∀ b : Bool, (0 : Nat) + (if b = true then 1 else 0) ≤ 1 := by
        intro b; cases b <;> simp
      exact hx _

/-- Witness for C4 at a concrete fresh-table run with two chunks. -/
theorem overwrite_only_first_write_witness :
    (∀ (i : Nat)
      (h : i < (convert_to_delta_lake_writes ⟨false, []⟩ false
        [⟨"00", some [{ parcel_id := "a", date := 1 }]⟩,
         ⟨"01", some [{ parcel_id := "b", date := 1 }]⟩]).length), 0 < i →
      ((convert_to_delta_lake_writes ⟨false, []⟩ false
        [⟨"00", some [{ parcel_id := "a", date := 1 }]⟩,
         ⟨"01", some [{ parcel_id := "b", date := 1 }]⟩]).get ⟨i, h⟩).2 = WriteMode.append) ∧
    (∀ e, (convert_to_delta_lake_writes ⟨false, []⟩ false
        [⟨"00", some [{ parcel_id := "a", date := 1 }]⟩,
         ⟨"01", some [{ parcel_id := "b", date := 1 }]⟩]).head? = some e →
      (e.2 = WriteMode.overwrite ↔ ((⟨false, []⟩ : DeltaTableState).tableExists = false ∨ false = true))) ∧
    (convert_to_delta_lake_writes ⟨false, []⟩ false
        [⟨"00", some [{ parcel_id := "a", date := 1 }]⟩,
         ⟨"01", some [{ parcel_id := "b", date := 1 }]⟩]).countP
      (fun e => e.2 == WriteMode.overwrite) ≤ 1 :=
  overwrite_only_first_write ⟨false, []⟩ false
    [⟨"00", some [{ parcel_id := "a", date := 1 }]⟩,
     ⟨"01", some [{ parcel_id := "b", date := 1 }]⟩]

lemma mem_chunkRows {hash : String → Nat} {N i : Nat} {rows : List Row} {r : Row} :
    r ∈ chunkRows hash N i rows ↔ r ∈ rows ∧ chunkIndex hash N r.parcel_id = i := by
  unfold chunkRows sortRows
  rw [(List.perm_insertionSort rowLe _).mem_iff]
  simp [List.mem_filter]

/-- C6: under a fixed positive `total_chunks`, the extraction query assigns
every source row to exactly one chunk index, `hash(parcel_id) % total_chunks`:
each row lands in its own chunk's file, chunks are pairwise disjoint, equal
parcel ids always get equal chunk indices, and the file written for chunk
`i` holds exactly the source rows with that hash value (as a permutation of
the filter), sorted by (`parcel_id`, `date`). -/
theorem hash_partition_properties (hash : String → Nat) (N : Nat) (hN : 0 < N)
    (rows : List Row) :
    (∀ r ∈ rows, chunkIndex hash N r.parcel_id < N ∧
      r ∈ chunkRows hash N (chunkIndex hash N r.parcel_id) rows) ∧
    (∀ i j : Nat, i ≠ j → ∀ r : Row, r ∈ chunkRows hash N i rows →
      r ∉ chunkRows hash N j rows) ∧
    (∀ r s : Row, r.parcel_id = s.parcel_id →
      chunkIndex hash N r.parcel_id = chunkIndex hash N s.parcel_id) ∧
    (∀ i : Nat, (chunkRows hash N i rows).Perm
      (rows.filter fun r => chunkIndex hash N r.parcel_id = i)) ∧
    (∀ i : Nat, List.Sorted rowLe (chunkRows hash N i rows)) := by
  refine ⟨?_, ?_, ?_, ?_, ?_⟩
  · intro r hr
    exact ⟨Nat.mod_lt _ hN, mem_chunkRows.mpr ⟨hr, rfl⟩⟩
  · intro i j hij r hri hrj
    have hi := (mem_chunkRows.mp hri).2
    have hj := (mem_chunkRows.mp hrj).2
    exact hij (hi.symm.trans hj)
  · intro r s h
    rw [h]
  · intro i
    exact List.perm_insertionSort rowLe _
  · intro i
    exact List.sorted_insertionSort rowLe _

/-- Witness for C6 at `hash = String.length`, `total_chunks = 2`, and a
two-row source. -/
theorem hash_partition_properties_witness :
    0 < 2 ∧
    ((∀ r ∈ ([{ parcel_id := "a", date := 1 }, { parcel_id := "bb", date := 2 }] : List Row),
      chunkIndex String.length 2 r.parcel_id < 2 ∧
      r ∈ chunkRows String.length 2 (chunkIndex String.length 2 r.parcel_id)
        [{ parcel_id := "a", date := 1 }, { parcel_id := "bb", date := 2 }]) ∧
    (∀ i j : Nat, i ≠ j → ∀ r : Row,
      r ∈ chunkRows String.length 2 i
        [{ parcel_id := "a", date := 1 }, { parcel_id := "bb", date := 2 }] →
      r ∉ chunkRows String.length 2 j
        [{ parcel_id := "a", date := 1 }, { parcel_id := "bb", date := 2 }]) ∧
    (∀ r s : Row, r.parcel_id = s.parcel_id →
      chunkIndex String.length 2 r.parcel_id = chunkIndex String.length 2 s.parcel_id) ∧
    (∀ i : Nat, (chunkRows String.length 2 i
        [{ parcel_id := "a", date := 1 }, { parcel_id := "bb", date := 2 }]).Perm
      ([{ parcel_id := "a", date := 1 }, { parcel_id := "bb", date := 2 }].filter
        fun r => chunkIndex String.length 2 r.parcel_id = i)) ∧
    (∀ i : Nat, List.Sorted rowLe (chunkRows String.length 2 i
        [{ parcel_id := "a", date := 1 }, { parcel_id := "bb", date := 2 }]))) :=
  ⟨by decide,
    hash_partition_properties String.length 2 (by decide)
      [{ parcel_id := "a", date := 1 }, { parcel_id := "bb", date := 2 }]⟩

/-- The union of the parcel-id sets of a partition list, as accumulated by
the overlap-detection loop. -/
def partitions_parcels : List (String × List String) → Finset String
  | [] => ∅
  | (_, ids) :: rest => ids.toFinset ∪ partitions_parcels rest

lemma overlap_issues_of_mem_seen :
    ∀ (ps : List (String × List String)) (seen : Finset String),
      (∃ pr ∈ ps, ∃ id ∈ pr.2, id ∈ seen) →
      ∃ i ∈ overlap_issues seen ps, i.isOverlap = true := by
  intro ps
  induction ps with
  | nil =>
    intro seen h
    rcases h with ⟨pr, hpr, _⟩
    simp at hpr
  | cons hd tl ih =>
    intro seen h
    obtain ⟨p, ids⟩ := hd
    rcases h with ⟨pr, hpr, id, hid, hseen⟩
    rcases List.mem_cons.mp hpr with rfl | hmem
    · have hne : (seen ∩ ids.toFinset).Nonempty :=
        ⟨id, Finset.mem_inter.mpr ⟨hseen, List.mem_toFinset.mpr hid⟩⟩
      refine ⟨Issue.overlap p (seen ∩ ids.toFinset).card, ?_, rfl⟩
      rw [overlap_issues, if_pos hne]
      exact List.mem_append_left _ (List.mem_singleton_self _)
    · have h' : ∃ pr ∈ tl, ∃ id ∈ pr.2, id ∈ seen ∪ ids.toFinset :=
        ⟨pr, hmem, id, hid, Finset.mem_union_left _ hseen⟩
      obtain ⟨i, hi, hio⟩ := ih (seen ∪ ids.toFinset) h'
      refine ⟨i, ?_, hio⟩
      rw [overlap_issues]
      exact List.mem_append_right _ hi

lemma mem_partitions_parcels {id : String} {pr : String × List String}
    {l : List (String × List String)} (hpr : pr ∈ l) (hid : id ∈ pr.2) :
    id ∈ partitions_parcels l := by
  induction l with
  | nil => simp at hpr
  | cons hd tl ih =>
    obtain ⟨p, ids⟩ := hd
    rcases List.mem_cons.mp hpr with rfl | hmem
    · exact Finset.mem_union_left _ (List.mem_toFinset.mpr hid)
    · exact Finset.mem_union_right _ (ih hmem)

lemma overlap_issues_suffix :
    ∀ (l : List (String × List String)) (seen : Finset String)
      (ps : List (String × List String)),
      (∃ i ∈ overlap_issues (seen ∪ partitions_parcels l) ps, i.isOverlap = true) →
      ∃ i ∈ overlap_issues seen (l ++ ps), i.isOverlap = true := by
  intro l
  induction l with
  | nil =>
    intro seen ps h
    simpa [partitions_parcels] using h
  | cons hd tl ih =>
    intro seen ps h
    obtain ⟨p, ids⟩ := hd
    have h' : ∃ i ∈ overlap_issues ((seen ∪ ids.toFinset) ∪ partitions_parcels tl) ps,
        i.isOverlap = true := by
      rwa [partitions_parcels, ← Finset.union_assoc] at h
    obtain ⟨i, hi, hio⟩ := ih (seen ∪ ids.toFinset) ps h'
    refine ⟨i, ?_, hio⟩
    show i ∈ overlap_issues seen (((p, ids) :: tl) ++ ps)
    rw [List.cons_append, overlap_issues]
    exact List.mem_append_right _ hi

/-- C7: if two different partitions of the table contain a common
`parcel_id`, the validator's issue list contains a partition-overlap
issue and the returned result has `valid = False`. -/
theorem overlap_detection (stats : TableStats) (cross : List Issue)
    (l₁ l₂ l₃ : List (String × List String)) (p₁ p₂ : String)
    (ids₁ ids₂ : List String) (id : String)
    (h₁ : id ∈ ids₁) (h₂ : id ∈ ids₂) :
    (∃ i ∈ (validate_partitioned_delta_table stats
        (l₁ ++ (p₁, ids₁) :: l₂ ++ (p₂, ids₂) :: l₃) cross).issues,
      i.isOverlap = true) ∧
    (validate_partitioned_delta_table stats
        (l₁ ++ (p₁, ids₁) :: l₂ ++ (p₂, ids₂) :: l₃) cross).valid = false := by
  have key : ∃ i ∈ overlap_issues ∅ ((l₁ ++ (p₁, ids₁) :: l₂) ++ (p₂, ids₂) :: l₃),
      i.isOverlap = true := by
    apply overlap_issues_suffix (l₁ ++ (p₁, ids₁) :: l₂)
    have hidseen : id ∈ ∅ ∪ partitions_parcels (l₁ ++ (p₁, ids₁) :: l₂) :=
      Finset.mem_union_right _
        (mem_partitions_parcels
          (List.mem_append_right _ (List.mem_cons_self _ _)) h₁)
    have hne : ((∅ ∪ partitions_parcels (l₁ ++ (p₁, ids₁) :: l₂)) ∩
        ids₂.toFinset).Nonempty :=
      ⟨id, Finset.mem_inter.mpr ⟨hidseen, List.mem_toFinset.mpr h₂⟩⟩
    refine ⟨Issue.overlap p₂
      (((∅ ∪ partitions_parcels (l₁ ++ (p₁, ids₁) :: l₂)) ∩ ids₂.toFinset).card),
      ?_, rfl⟩
    rw [overlap_issues, if_pos hne]
    exact List.mem_append_left _ (List.mem_singleton_self _)
  obtain ⟨i, hi, hio⟩ := key
  have hmem : i ∈ (validate_partitioned_delta_table stats
      (l₁ ++ (p₁, ids₁) :: l₂ ++ (p₂, ids₂) :: l₃) cross).issues :=
    List.mem_append_left _ (List.mem_append_left _ hi)
  refine ⟨⟨i, hmem, hio⟩, ?_⟩
  have hne := List.ne_nil_of_mem hmem
  show (validate_partitioned_delta_table stats
      (l₁ ++ (p₁, ids₁) :: l₂ ++ (p₂, ids₂) :: l₃) cross).issues.isEmpty = false
  cases heq : (validate_partitioned_delta_table stats
      (l₁ ++ (p₁, ids₁) :: l₂ ++ (p₂, ids₂) :: l₃) cross).issues.isEmpty
  · rfl
  · exact absurd (List.isEmpty_iff.mp heq) hne

/-- Witness for C7: two singleton partitions both containing parcel "a". -/
theorem overlap_detection_witness :
    ("a" ∈ (["a"] : List String)) ∧
    ((∃ i ∈ (validate_partitioned_delta_table {}
        ([] ++ ("00", ["a"]) :: [] ++ ("01", ["a"]) :: []) []).issues,
      i.isOverlap = true) ∧
    (validate_partitioned_delta_table {}
        ([] ++ ("00", ["a"]) :: [] ++ ("01", ["a"]) :: []) []).valid = false) :=
  ⟨by decide,
    overlap_detection {} [] [] [] [] "00" "01" ["a"] ["a"] "a" (by decide) (by decide)⟩

end LakeSandbox
